import Mathlib

/-!
Verification of the payslip ("holerite") analysis engine in `src/main.py`.

Strings are modelled as `List Char`; Python substring tests (`in`), `split`,
`strip`, the Brazilian-currency regular expressions and the numeric
conversions are embedded as executable functions below.  Monetary values are
modelled as exact rationals (`ℚ`); every decimal value appearing in the
program or its data is exactly representable, so float rounding plays no
role in the statements proved here.
-/

/-- Strings of the analysed program, modelled as lists of characters. -/
abbrev Str := List Char

/-- Coerce a Lean string literal into the `List Char` model. -/
def sl (s : String) : Str := s.data

/-- Python whitespace characters relevant to `str.strip` (lines never
contain `'\n'` after splitting, but it is included for faithfulness). -/
def isWs (c : Char) : Bool :=
  c = ' ' || c = '\t' || c = '\n' || c = '\r' || c = '\x0b' || c = '\x0c'

/-- `pat` is a prefix of `s` (Python `s.startswith(pat)` on the model). -/
def prefOf : Str → Str → Bool
  | [], _ => true
  | _ :: _, [] => false
  | a :: as, b :: bs => a = b && prefOf as bs

/-- Python's substring test `pat in s`: `pat` occurs contiguously in `s`. -/
def containsStr (pat : Str) : Str → Bool
  | [] => prefOf pat []
  | s@(_ :: rest) => prefOf pat s || containsStr pat rest

/-- Python `str.strip()`: drop leading and trailing whitespace. -/
def strip (s : Str) : Str :=
  ((s.dropWhile isWs).reverse.dropWhile isWs).reverse

/-- Python `text.split('\n')`. -/
def splitNL : Str → List Str
  | [] => [[]]
  | c :: cs =>
    match splitNL cs with
    | [] => [[]]
    | l :: ls => if c = '\n' then [] :: l :: ls else (c :: l) :: ls

/-- Append `x` unless already present: Python's
`if x not in acc: acc.append(x)` idiom used for per-category deduplication. -/
def appendUnique (acc : List Str) (x : Str) : List Str :=
  if x ∈ acc then acc else acc ++ [x]

/-- ASCII digit test (the `\d` of the program's regular expressions). -/
def isDigit (c : Char) : Bool := '0' ≤ c && c ≤ '9'

/-!
### Text normalizer (`normalizar_texto`, src/main.py lines 145-158)

The source upper-cases the text and then, for each pair of the `acentos`
dictionary in insertion order, replaces the accented character by its plain
counterpart.  `str.upper()` is modelled character-wise by a lookup table
covering the characters the analyser manipulates (ASCII lowercase letters and
the accented lowercase letters whose uppercase forms appear in `acentos`);
other characters are unchanged.  A single-character `str.replace` is a
character-wise map.
-/

/-- Association-list lookup (first matching key wins), used for the
character tables below. -/
def lookupC (c : Char) : List (Char × Char) → Option Char
  | [] => none
  | p :: ps => if c = p.1 then some p.2 else lookupC c ps

/-- Character-wise model of Python `str.upper()` restricted to the
characters the program manipulates: ASCII lowercase letters and the accented
lowercase letters matching the `acentos` table.  All other characters map to
themselves. -/
def CHAR_UPPER : List (Char × Char) :=
  [('a', 'A'), ('b', 'B'), ('c', 'C'), ('d', 'D'), ('e', 'E'), ('f', 'F'),
   ('g', 'G'), ('h', 'H'), ('i', 'I'), ('j', 'J'), ('k', 'K'), ('l', 'L'),
   ('m', 'M'), ('n', 'N'), ('o', 'O'), ('p', 'P'), ('q', 'Q'), ('r', 'R'),
   ('s', 'S'), ('t', 'T'), ('u', 'U'), ('v', 'V'), ('w', 'W'), ('x', 'X'),
   ('y', 'Y'), ('z', 'Z'),
   ('á', 'Á'), ('à', 'À'), ('ã', 'Ã'), ('â', 'Â'), ('é', 'É'), ('ê', 'Ê'),
   ('í', 'Í'), ('ó', 'Ó'), ('õ', 'Õ'), ('ô', 'Ô'), ('ú', 'Ú'), ('ç', 'Ç')]

/-- The `acentos` dictionary of `normalizar_texto`, in insertion order. -/
def ACENTOS : List (Char × Char) :=
  [('Á', 'A'), ('À', 'A'), ('Ã', 'A'), ('Â', 'A'), ('É', 'E'), ('Ê', 'E'),
   ('Í', 'I'), ('Ó', 'O'), ('Õ', 'O'), ('Ô', 'O'), ('Ú', 'U'), ('Ç', 'C')]

/-- One character of `str.upper()`. -/
def pyUpperChar (c : Char) : Char := (lookupC c CHAR_UPPER).getD c

/-- `texto.upper()` on the model. -/
def pyUpper (t : Str) : Str := t.map pyUpperChar

/-- Python `texto.replace(a, b)` for single characters: a character-wise map. -/
def replaceChar (t : Str) (a b : Char) : Str :=
  t.map (fun c => if c = a then b else c)

/-- `normalizar_texto` (src/main.py lines 145-158): upper-case, then apply
the `acentos` replacements in dictionary order. -/
def normalizar_texto (texto : Str) : Str :=
  ACENTOS.foldl (fun t p => replaceChar t p.1 p.2) (pyUpper texto)

/-- The character-level accent folding performed by the sequence of
`replace` calls. -/
def accFold (c : Char) : Char :=
  ACENTOS.foldl (fun x p => if x = p.1 then p.2 else x) c

/-- The whole normalizer acts character-wise via this function. -/
def normChar (c : Char) : Char := accFold (pyUpperChar c)

/-- Keys of the two character tables: only these characters are moved by the
normalizer. -/
def normKeys : List Char := CHAR_UPPER.map Prod.fst ++ ACENTOS.map Prod.fst

/-!
### Brazilian-currency regular expressions

The source uses three patterns, embedded here with Python `re` semantics
(leftmost match, alternatives tried in order, greedy quantifiers with
backtracking, non-overlapping scan for `findall`):

* `\d{1,3}(?:\.\d{3})*,\d{2}|\d+,\d{2}`  — `findall` in
  `extrair_valores_linha` / `extrair_valores_vencimento` /
  `extrair_valores_desconto` (lines 292-298, 499-522);
* `(\d{6})` — `re.search` in the registration-number branch (line 264);
* `(\d+[.,]\d{2})` — `re.search` in the VENCIMENTOS / DESCONTOS branches
  (lines 269, 275);
* `\d{1,3}(?:\.\d{3})*,\d{2}` — `re.search` in the LIQUIDO branch (line 281).
-/

/-- Match exactly `n` digits at the head, returning them and the rest. -/
def takeExactDigits : Nat → Str → Option (Str × Str)
  | 0, s => some ([], s)
  | _ + 1, [] => none
  | n + 1, c :: rest =>
    if isDigit c then (takeExactDigits n rest).map (fun pr => (c :: pr.1, pr.2)) else none

/-- Match `,\d{2}` at the head. -/
def matchComma2 : Str → Option (Str × Str)
  | c :: d1 :: d2 :: rest =>
    if c = ',' && isDigit d1 && isDigit d2 then some ([c, d1, d2], rest) else none
  | _ => none

/-- Match `(?:\.\d{3})*,\d{2}` at the head: the star is greedy, and on
failure of the remainder it backtracks one group at a time, exactly as the
`re` engine does. -/
def matchTail : Str → Option (Str × Str)
  | s@('.' :: d1 :: d2 :: d3 :: rest) =>
    if isDigit d1 && isDigit d2 && isDigit d3 then
      match matchTail rest with
      | some pr => some ('.' :: d1 :: d2 :: d3 :: pr.1, pr.2)
      | none => matchComma2 s
    else matchComma2 s
  | s => matchComma2 s

/-- Attempt the first alternative with exactly `k` leading digits. -/
def alt1TryK (k : Nat) (s : Str) : Option (Str × Str) :=
  match takeExactDigits k s with
  | some pr =>
    match matchTail pr.2 with
    | some pr2 => some (pr.1 ++ pr2.1, pr2.2)
    | none => none
  | none => none

/-- Match `\d{1,3}(?:\.\d{3})*,\d{2}` at the head; `{1,3}` is greedy, so
three digits are attempted first, then two, then one. -/
def matchAlt1 (s : Str) : Option (Str × Str) :=
  match alt1TryK 3 s with
  | some r => some r
  | none =>
    match alt1TryK 2 s with
    | some r => some r
    | none => alt1TryK 1 s

/-- Match `\d+,\d{2}` at the head; `\d+` is greedy with backtracking (only
the maximal digit run can be followed by `,`, which the recursion mirrors). -/
def matchAlt2 : Str → Option (Str × Str)
  | c :: rest =>
    if isDigit c then
      match matchAlt2 rest with
      | some pr => some (c :: pr.1, pr.2)
      | none =>
        match matchComma2 rest with
        | some pr => some (c :: pr.1, pr.2)
        | none => none
    else none
  | [] => none

/-- Match the full alternation `\d{1,3}(?:\.\d{3})*,\d{2}|\d+,\d{2}` at the
head; the first alternative is preferred, as in `re`. -/
def matchCurrencyAt (s : Str) : Option (Str × Str) :=
  match matchAlt1 s with
  | some r => some r
  | none => matchAlt2 s

/-- Scan for all non-overlapping matches, left to right.  The fuel argument
only bounds recursion: every successful match consumes at least three
characters, so `s.length` fuel is never exhausted while input remains. -/
def findallAux : Nat → Str → List Str
  | 0, _ => []
  | _ + 1, [] => []
  | fuel + 1, s@(_ :: rest) =>
    match matchCurrencyAt s with
    | some pr => pr.1 :: findallAux fuel pr.2
    | none => findallAux fuel rest

/-- `re.findall(r'\d{1,3}(?:\.\d{3})*,\d{2}|\d+,\d{2}', s)`. -/
def findallCurrency (s : Str) : List Str := findallAux s.length s

/-- `re.search(r'(\d{6})', s)`: first run of six digits. -/
def search6d : Str → Option Str
  | [] => none
  | s@(_ :: rest) =>
    match takeExactDigits 6 s with
    | some pr => some pr.1
    | none => search6d rest

/-- Match `\d+[.,]\d{2}` at the head (greedy `\d+` with backtracking). -/
def matchSimpleVal : Str → Option Str
  | c :: rest =>
    if isDigit c then
      match matchSimpleVal rest with
      | some m => some (c :: m)
      | none =>
        match rest with
        | p :: d1 :: d2 :: _ =>
          if (p = '.' || p = ',') && isDigit d1 && isDigit d2 then
            some [c, p, d1, d2]
          else none
        | _ => none
    else none
  | [] => none

/-- `re.search(r'(\d+[.,]\d{2})', s)`. -/
def searchSimple : Str → Option Str
  | [] => none
  | s@(_ :: rest) =>
    match matchSimpleVal s with
    | some m => some m
    | none => searchSimple rest

/-- `re.search(r'\d{1,3}(?:\.\d{3})*,\d{2}', s)` (the LIQUIDO pattern). -/
def searchFull : Str → Option Str
  | [] => none
  | s@(_ :: rest) =>
    match matchAlt1 s with
    | some pr => some pr.1
    | none => searchFull rest

/-!
### Numeric conversion

`valor_str = token.replace('.', '').replace(',', '.')` followed by
`float(valor_str)`.  Every value handled by the program is a finite decimal,
represented exactly in `ℚ`.
-/

/-- Decimal digits to a natural number. -/
def digitsToNat (ds : Str) : ℕ :=
  ds.foldl (fun n c => 10 * n + (c.toNat - '0'.toNat)) 0

/-- Python `float` on a string of the shape `digits` or `digits.digits`. -/
def pyFloatOfDec (s : Str) : ℚ :=
  let ip := s.takeWhile (fun c => c ≠ '.')
  let fp := (s.dropWhile (fun c => c ≠ '.')).drop 1
  (digitsToNat ip : ℚ) + (digitsToNat fp : ℚ) / (10 : ℚ) ^ fp.length

/-- `float(token.replace('.', '').replace(',', '.'))`. -/
def valorDe (tok : Str) : ℚ :=
  pyFloatOfDec ((tok.filter (fun c => c ≠ '.')).map (fun c => if c = ',' then '.' else c))

/-- `extrair_valores_linha` (lines 292-298): last currency token of the
line, or `0.0`. -/
def extrair_valores_linha (linha : Str) : ℚ :=
  match (findallCurrency linha).getLast? with
  | some v => valorDe v
  | none => 0

/-- `extrair_valores_vencimento` (lines 499-511): second-to-last currency
token; with a single token, that token; otherwise `0.0`. -/
def extrair_valores_vencimento (linha : Str) : ℚ :=
  match (findallCurrency linha).reverse with
  | _ :: v2 :: _ => valorDe v2
  | [v] => valorDe v
  | [] => 0

/-- `extrair_valores_desconto` (lines 514-522): last currency token of the
line, or `0.0`. -/
def extrair_valores_desconto (linha : Str) : ℚ :=
  match (findallCurrency linha).getLast? with
  | some v => valorDe v
  | none => 0

/-!
### Line classifier (`identificar_cartoes_credito`, src/main.py lines 175-245)

The classifier returns a dictionary with exactly three buckets
(`nossos_contratos`, `conhecidos`, `desconhecidos`); there is no loan
bucket — lines matching an exclusion term are skipped (`continue`).
-/

/-- `NOSSOS_PRODUTOS` (lines 80-84). -/
def NOSSOS_PRODUTOS : List Str := [sl "STARCARD", sl "ANTICIPAY", sl "STARBANK"]

/-- `CARTOES_CONHECIDOS` (lines 87-97). -/
def CARTOES_CONHECIDOS : List Str :=
  [sl "NIO", sl "DAYCOVAL", sl "BMG", sl "PAN", sl "VEMCARD", sl "PIXCARD",
   sl "MEUCASHCARD", sl "PINE", sl "BRADESCO"]

/-- `TERMOS_EXCLUSAO` (lines 182-185). -/
def TERMOS_EXCLUSAO : List Str :=
  [sl "EMPRESTIMO", sl "EMP ", sl " EMP", sl "CONSIGNADO",
   sl "FINANCIAMENTO", sl "CREDITO PESSOAL", sl "CP "]

/-- Card-context keywords of the own-products pass (line 200). -/
def KW_CARTAO_NOSSOS : List Str :=
  [sl "CARTAO", sl "CRED", sl "ANTICIPAY", sl "STARCARD", sl "STARBANK"]

/-- Card-context keywords of the known-competitors pass (line 215). -/
def KW_CARTAO_CONHECIDOS : List Str :=
  [sl "CARTAO", sl "CRED", sl "CART.", sl "CART"]

/-- Card-context keywords of the unknown pass (lines 234-235). -/
def KW_CARTAO_DESCONHECIDOS : List Str :=
  [sl "CARTAO", sl "CART ", sl "CRED", sl "CREDITO", sl "CART."]

/-- `any(termo in linha for termo in TERMOS_EXCLUSAO)`. -/
def temExclusao (linha : Str) : Bool :=
  TERMOS_EXCLUSAO.any (fun termo => containsStr termo linha)

/-- The `cartoes_encontrados` dictionary: the classifier's three buckets. -/
structure CartoesEncontrados where
  nossos_contratos : List Str
  conhecidos : List Str
  desconhecidos : List Str
deriving DecidableEq

/-- One line of the own-products pass (lines 198-207): the line must contain
the product and a card keyword; an exclusion term skips it; otherwise it is
appended if not already present. -/
def passoNossos (produto : Str) (acc : List Str) (linha : Str) : List Str :=
  if containsStr produto linha && KW_CARTAO_NOSSOS.any (fun kw => containsStr kw linha) then
    if temExclusao linha then acc
    else appendUnique acc (strip linha)
  else acc

/-- One line of the known-competitors pass (lines 214-222). -/
def passoConhecidos (cartao : Str) (acc : List Str) (linha : Str) : List Str :=
  if containsStr cartao linha && KW_CARTAO_CONHECIDOS.any (fun kw => containsStr kw linha) then
    if temExclusao linha then acc
    else appendUnique acc (strip linha)
  else acc

/-- `eh_nosso` of the unknown pass (line 238). -/
def ehNosso (linha_norm : Str) : Bool :=
  NOSSOS_PRODUTOS.any (fun produto => containsStr produto linha_norm)

/-- `eh_conhecido` of the unknown pass (line 239). -/
def ehConhecido (linha_norm : Str) : Bool :=
  CARTOES_CONHECIDOS.any (fun cartao => containsStr cartao linha_norm)

/-- One line of the unknown pass (lines 227-243): exclusion terms skip the
line first; then a card keyword is required; the line must match no brand of
either list and have nonempty stripped text. -/
def passoDesconhecidos (acc : List Str) (linha : Str) : List Str :=
  let linha_norm := normalizar_texto linha
  if temExclusao linha_norm then acc
  else if KW_CARTAO_DESCONHECIDOS.any (fun kw => containsStr kw linha_norm) then
    if !ehNosso linha_norm && !ehConhecido linha_norm && !(strip linha).isEmpty then
      appendUnique acc (strip linha)
    else acc
  else acc

/-- The conditions under which the own-products pass appends a line,
flattened into one Boolean (used to state membership lemmas). -/
def condNossos (produto linha : Str) : Bool :=
  containsStr produto linha
    && KW_CARTAO_NOSSOS.any (fun kw => containsStr kw linha)
    && !temExclusao linha

/-- The conditions under which the known-competitors pass appends a line. -/
def condConhecidos (cartao linha : Str) : Bool :=
  containsStr cartao linha
    && KW_CARTAO_CONHECIDOS.any (fun kw => containsStr kw linha)
    && !temExclusao linha

/-- The conditions under which the unknown pass appends a line. -/
def condDesconhecidos (linha : Str) : Bool :=
  !temExclusao (normalizar_texto linha)
    && KW_CARTAO_DESCONHECIDOS.any (fun kw => containsStr kw (normalizar_texto linha))
    && !ehNosso (normalizar_texto linha)
    && !ehConhecido (normalizar_texto linha)
    && !(strip linha).isEmpty

/-- `identificar_cartoes_credito` (lines 175-245). -/
def identificar_cartoes_credito (texto : Str) : CartoesEncontrados :=
  let texto_normalizado := normalizar_texto texto
  let linhas := splitNL texto_normalizado
  { nossos_contratos :=
      NOSSOS_PRODUTOS.foldl (fun acc produto =>
        if containsStr produto texto_normalizado then
          linhas.foldl (passoNossos produto) acc
        else acc) [],
    conhecidos :=
      CARTOES_CONHECIDOS.foldl (fun acc cartao =>
        if containsStr cartao texto_normalizado then
          linhas.foldl (passoConhecidos cartao) acc
        else acc) [],
    desconhecidos := linhas.foldl passoDesconhecidos [] }

/-!
### Field extractor (`extrair_informacoes_financeiras`, lines 247-286)

A single forward scan; every matching line overwrites the field (there is no
first-match guard in the source).  The `liquido` field starts as the empty
string `''` and becomes a float when found; it is modelled as `Option ℚ`.
-/

/-- The `info` dictionary (lines 249-255). -/
structure InfoFinanceira where
  nome : Str
  matricula : Str
  vencimentos_total : ℚ
  descontos_total : ℚ
  liquido : Option ℚ

/-- Name rule (lines 260-261): a line containing `NOME` with a successor
line sets the name to the next line, stripped. -/
def nomeUpd (linhas : List Str) (i : ℕ) (linha : Str) : Option Str :=
  if containsStr (sl "NOME") linha then (linhas[i + 1]?).map strip else none

/-- Registration rule (lines 263-266): first 6-digit run of the line. -/
def matriculaUpd (linha : Str) : Option Str :=
  if containsStr (sl "MATRICULA") linha then search6d linha else none

/-- Gross-total rule (lines 268-272). -/
def vencUpd (linha : Str) : Option ℚ :=
  if containsStr (sl "VENCIMENTOS") linha && !containsStr (sl "DESCONTOS") linha then
    (searchSimple linha).map valorDe
  else none

/-- Deductions-total rule (lines 274-278). -/
def descUpd (linha : Str) : Option ℚ :=
  if containsStr (sl "DESCONTOS") linha && !containsStr (sl "VENCIMENTOS") linha then
    (searchSimple linha).map valorDe
  else none

/-- Net-pay rule (lines 280-284): keyword checked on the normalized line,
value parsed with the thousands-aware pattern. -/
def liqUpd (linha : Str) : Option ℚ :=
  if containsStr (sl "LIQUIDO") (normalizar_texto linha) then
    (searchFull linha).map valorDe
  else none

/-- One line of the scan: each rule overwrites its field when it fires. -/
def passoInfo (linhas : List Str) (info : InfoFinanceira) (il : ℕ × Str) : InfoFinanceira :=
  { nome := (nomeUpd linhas il.1 il.2).getD info.nome,
    matricula := (matriculaUpd il.2).getD info.matricula,
    vencimentos_total := (vencUpd il.2).getD info.vencimentos_total,
    descontos_total := (descUpd il.2).getD info.descontos_total,
    liquido := ((liqUpd il.2).map some).getD info.liquido }

/-- `extrair_informacoes_financeiras` (lines 247-286). -/
def extrair_informacoes_financeiras (texto : Str) : InfoFinanceira :=
  let linhas := splitNL texto
  linhas.enum.foldl (passoInfo linhas)
    { nome := [], matricula := [], vencimentos_total := 0, descontos_total := 0,
      liquido := none }

/-!
### Value extractor (`extrair_valores_cartoes`, lines 527-569)

For each classified line the deduction-column value is parsed; only lines
with a strictly positive value are appended (and added to the running
total) — lines whose parse yields `0.0` are dropped from the result.
-/

/-- A `{'descricao': ..., 'valor': ...}` entry. -/
structure ItemValor where
  descricao : Str
  valor : ℚ

/-- The `valores_cartoes` result dictionary. -/
structure ValoresCartoes where
  nossos_contratos : List ItemValor
  conhecidos : List ItemValor
  desconhecidos : List ItemValor
  total : ℚ

/-- One line of the own-contracts loop (lines 540-547). -/
def passoValoresNossos (s : ValoresCartoes) (cartao_linha : Str) : ValoresCartoes :=
  let valor := extrair_valores_desconto cartao_linha
  if 0 < valor then
    { s with
      nossos_contratos := s.nossos_contratos ++ [⟨strip cartao_linha, valor⟩],
      total := s.total + valor }
  else s

/-- One line of the known-cards loop (lines 550-557). -/
def passoValoresConhecidos (s : ValoresCartoes) (cartao_linha : Str) : ValoresCartoes :=
  let valor := extrair_valores_desconto cartao_linha
  if 0 < valor then
    { s with
      conhecidos := s.conhecidos ++ [⟨strip cartao_linha, valor⟩],
      total := s.total + valor }
  else s

/-- One line of the unknown-cards loop (lines 560-567). -/
def passoValoresDesconhecidos (s : ValoresCartoes) (cartao_linha : Str) : ValoresCartoes :=
  let valor := extrair_valores_desconto cartao_linha
  if 0 < valor then
    { s with
      desconhecidos := s.desconhecidos ++ [⟨strip cartao_linha, valor⟩],
      total := s.total + valor }
  else s

/-- `extrair_valores_cartoes` (lines 527-569).  The `texto` argument is
unused by the source body as well. -/
def extrair_valores_cartoes (_texto : Str) (cartoes_encontrados : CartoesEncontrados) :
    ValoresCartoes :=
  let s1 := cartoes_encontrados.nossos_contratos.foldl passoValoresNossos ⟨[], [], [], 0⟩
  let s2 := cartoes_encontrados.conhecidos.foldl passoValoresConhecidos s1
  cartoes_encontrados.desconhecidos.foldl passoValoresDesconhecidos s2

/-!
### Margin calculator (`calcular_margem_disponivel`, lines 572-617)

A single undivided cap: `margem_total = base_calculo * percentual_permitido`
with `base_calculo = salario_base + vencimentos_fixos.total -
descontos_obrigatorios.total`.  In Python `percentual_permitido` defaults to
`0.15`; both call sites of the repository pass `0.15` (the default at line
626, explicitly at line 662).  The parameter is explicit here.
-/

/-- The `vencimentos_fixos` dictionary (lines 345-350), as consumed by the
margin calculator (only `total` is read there). -/
structure VencimentosFixos where
  adicional_tempo_servico : ℚ
  sexta_parte : ℚ
  outros_fixos : List ItemValor
  total : ℚ

/-- The `descontos_obrigatorios` dictionary (lines 411-416). -/
structure DescontosObrigatorios where
  inss : ℚ
  irrf : ℚ
  previdencia : ℚ
  total : ℚ

/-- The result dictionary of `calcular_margem_disponivel` (lines 606-617).
`percentual_permitido` is stored multiplied by 100, as in the source. -/
structure Margem where
  salario_base : ℚ
  total_vencimentos_fixos : ℚ
  total_descontos_obrigatorios : ℚ
  base_calculo : ℚ
  percentual_permitido : ℚ
  margem_total : ℚ
  total_cartoes : ℚ
  margem_disponivel : ℚ
  percentual_utilizado : ℚ
  tem_margem : Bool

/-- `calcular_margem_disponivel` (lines 572-617). -/
def calcular_margem_disponivel (salario_base : ℚ) (vencimentos_fixos : VencimentosFixos)
    (descontos_obrigatorios : DescontosObrigatorios) (valores_cartoes : ValoresCartoes)
    (percentual_permitido : ℚ) : Margem :=
  let total_vencimentos_fixos := vencimentos_fixos.total
  let total_descontos_obrigatorios := descontos_obrigatorios.total
  let base_calculo := salario_base + total_vencimentos_fixos - total_descontos_obrigatorios
  let margem_total := base_calculo * percentual_permitido
  let total_cartoes := valores_cartoes.total
  let margem_disponivel := margem_total - total_cartoes
  let percentual_utilizado := if 0 < margem_total then total_cartoes / margem_total * 100 else 0
  { salario_base := salario_base,
    total_vencimentos_fixos := total_vencimentos_fixos,
    total_descontos_obrigatorios := total_descontos_obrigatorios,
    base_calculo := base_calculo,
    percentual_permitido := percentual_permitido * 100,
    margem_total := margem_total,
    total_cartoes := total_cartoes,
    margem_disponivel := margem_disponivel,
    percentual_utilizado := percentual_utilizado,
    tem_margem := decide (0 < margem_disponivel) }

/-!
### `extrair_salario_bruto` (lines 300-334) and
`extrair_descontos_fixos` (lines 445-496)

Needed to embed `analisar_contracheque` faithfully: its extraction calls run
normally before the faulty call to the margin calculator.
-/

/-- `extrair_salario_bruto` (lines 300-334): three priority scans, each
returning the first strictly positive value found. -/
def extrair_salario_bruto (texto : Str) : ℚ :=
  let linhas := splitNL texto
  let p1 := linhas.findSome? fun linha =>
    let linha_norm := normalizar_texto linha
    if containsStr (sl "VENCIMENTOS ESTATUTARIOS") linha_norm
        || containsStr (sl "VENCIMENTO ESTATUTARIO") linha_norm then
      let valor := extrair_valores_vencimento linha
      if 0 < valor then some valor else none
    else none
  match p1 with
  | some v => v
  | none =>
    let p2 := linhas.enum.findSome? fun il =>
      let linha_norm := normalizar_texto il.2
      if containsStr (sl "VENCIMENTO BASE") linha_norm then
        match linhas[il.1 + 1]? with
        | some proxima =>
          match findallCurrency proxima with
          | v :: _ => some (valorDe v)
          | [] => none
        | none => none
      else none
    match p2 with
    | some v => v
    | none =>
      let p3 := linhas.findSome? fun linha =>
        let linha_norm := normalizar_texto linha
        if containsStr (sl "SALARIO BASE") linha_norm
            || (prefOf (sl "SALARIO") (strip linha_norm)
                && !containsStr (sl "DESCONTO") linha_norm) then
          let valor := extrair_valores_vencimento linha
          if 0 < valor then some valor else none
        else none
      p3.getD 0

/-- An entry of the `outros` list of `extrair_descontos_fixos`
(lines 489-493). -/
structure ItemCategoria where
  descricao : Str
  valor : ℚ
  categoria : Str

/-- The `descontos_fixos` dictionary (lines 450-458). -/
structure DescontosFixos where
  inss : ℚ
  irrf : ℚ
  previdencia : ℚ
  pensao : ℚ
  plano_saude : ℚ
  vale_transporte : ℚ
  outros : List ItemCategoria

/-- The `keywords` dictionary of `extrair_descontos_fixos` (lines 460-467),
in insertion order.  Accented entries are kept verbatim: they are compared
against normalized text and therefore never match, exactly as in the
source. -/
def DESCONTOS_FIXOS_KEYWORDS : List (Str × List Str) :=
  [(sl "inss", [sl "INSS", sl "I.N.S.S", sl "INSTITUTO NACIONAL"]),
   (sl "irrf", [sl "IRRF", sl "I.R.R.F", sl "IMPOSTO DE RENDA", sl "IR FONTE", sl "IMP RENDA"]),
   (sl "previdencia", [sl "PREV", sl "PREVIDENCIA", sl "RPPS", sl "UASPREV", sl "IPSM", sl "FUNPREV"]),
   (sl "pensao", [sl "PENSAO", sl "PENSÃO", sl "ALIMENTICIA", sl "ALIMENTÍCIA"]),
   (sl "plano_saude", [sl "PLANO", sl "SAUDE", sl "SAÚDE", sl "ASSISTENCIA MEDICA", sl "UNIMED", sl "AMIL"]),
   (sl "vale_transporte", [sl "VALE TRANSPORTE", sl "VT", sl "V.TRANSPORTE", sl "TRANSP"])]

/-- `extrair_descontos_fixos` (lines 445-496): per line, the first matching
keyword category receives the line's last currency value (when strictly
positive) and an `outros` entry; the `break` stops after the first matching
category. -/
def extrair_descontos_fixos (texto : Str) : DescontosFixos :=
  let linhas := splitNL texto
  linhas.foldl (fun df linha =>
    let linha_norm := normalizar_texto linha
    match DESCONTOS_FIXOS_KEYWORDS.find? (fun kv =>
        kv.2.any fun palavra => containsStr palavra linha_norm) with
    | some kv =>
      let valor := extrair_valores_linha linha
      if 0 < valor then
        let df' :=
          if kv.1 = sl "inss" then { df with inss := df.inss + valor }
          else if kv.1 = sl "irrf" then { df with irrf := df.irrf + valor }
          else if kv.1 = sl "previdencia" then { df with previdencia := df.previdencia + valor }
          else if kv.1 = sl "pensao" then { df with pensao := df.pensao + valor }
          else if kv.1 = sl "plano_saude" then { df with plano_saude := df.plano_saude + valor }
          else if kv.1 = sl "vale_transporte" then { df with vale_transporte := df.vale_transporte + valor }
          else df
        { df' with outros := df'.outros ++ [⟨strip linha, valor, kv.1⟩] }
      else df
    | none => df)
    { inss := 0, irrf := 0, previdencia := 0, pensao := 0, plano_saude := 0,
      vale_transporte := 0, outros := [] }

/-!
### `analisar_contracheque` (lines 619-633)

The helper calls
`calcular_margem_disponivel(salario_bruto, descontos_fixos, valores_cartoes)`
with three positional arguments, while the function declares four required
positional parameters (`salario_base`, `vencimentos_fixos`,
`descontos_obrigatorios`, `valores_cartoes`; only `percentual_permitido`
has a default).  Python evaluates the three extraction calls and then raises
`TypeError` when binding the call's arguments, so the helper can never
return.  The raise is modelled with `Except`.
-/

/-- Python exception raised by a mis-arity call. -/
inductive PyError where
  | typeError
deriving DecidableEq

/-- Number of required positional parameters of
`calcular_margem_disponivel` (line 572-574: four parameters without
defaults). -/
def margemRequiredPosParams : Nat := 4

/-- Number of positional arguments supplied by the call at line 626. -/
def analisarContrachequePosArgs : Nat := 3

/-- The result dictionary `analisar_contracheque` would build
(lines 628-633) if its margin call could succeed. -/
structure AnaliseContracheque where
  salario_bruto : ℚ
  descontos_fixos : DescontosFixos
  valores_cartoes : ValoresCartoes
  margem : Margem

set_option linter.unusedVariables false in
/-- `analisar_contracheque` (lines 619-633).  The three extractions run and
are discarded; the call to `calcular_margem_disponivel` supplies
`analisarContrachequePosArgs = 3` positional arguments against
`margemRequiredPosParams = 4` required parameters, so Python raises
`TypeError` before any result is built. -/
def analisar_contracheque (texto : Str) (cartoes_encontrados : CartoesEncontrados) :
    Except PyError AnaliseContracheque :=
  let salario_bruto := extrair_salario_bruto texto
  let descontos_fixos := extrair_descontos_fixos texto
  let valores_cartoes := extrair_valores_cartoes texto cartoes_encontrados
  Except.error PyError.typeError

/-- The entry the value extractor keeps for a classified line: present
exactly when the parsed deduction value is strictly positive (used to state
what `extrair_valores_cartoes` computes). -/
def itemPos (linha : Str) : Option ItemValor :=
  let valor := extrair_valores_desconto linha
  if 0 < valor then some ⟨strip linha, valor⟩ else none

/-- The spec's end-to-end reference document (its lines joined by
newlines). -/
def docReferencia : Str :=
  sl "NOME\nJOAO SILVA\nMATRICULA 123456\nVENCIMENTOS 3.000,00\nDESCONTOS 300,00\nBRADESCO CARTAO 150,00\nLIQUIDO 2.700,00"

/-! ## Theorems -/

/-! ### Normalizer lemmas -/

theorem foldl_replaceChar (ps : List (Char × Char)) (t : Str) :
    ps.foldl (fun t p => replaceChar t p.1 p.2) t
      = t.map (fun c => ps.foldl (fun x p => if x = p.1 then p.2 else x) c) := by
  induction ps generalizing t with
  | nil => simp
  | cons p ps ih =>
    simp only [List.foldl_cons]
    rw [ih, replaceChar, List.map_map]
    exact List.map_congr_left fun c _ => rfl

theorem normalizar_texto_eq_map (t : Str) :
    normalizar_texto t = t.map normChar := by
  rw [normalizar_texto, foldl_replaceChar, pyUpper, List.map_map]
  exact List.map_congr_left fun c _ => by
    simp only [Function.comp_apply, normChar, accFold]

theorem lookupC_eq_none_of_not_mem {c : Char} {ps : List (Char × Char)}
    (h : c ∉ ps.map Prod.fst) : lookupC c ps = none := by
  induction ps with
  | nil => rfl
  | cons p ps ih =>
    simp only [List.map_cons, List.mem_cons] at h
    push_neg at h
    rw [lookupC, if_neg h.1]
    exact ih h.2

theorem accFold_eq_self_of_not_mem {c : Char} (h : c ∉ ACENTOS.map Prod.fst) :
    accFold c = c := by
  rw [accFold]
  have : ∀ ps : List (Char × Char), c ∉ ps.map Prod.fst →
      ps.foldl (fun x p => if x = p.1 then p.2 else x) c = c := by
    intro ps
    induction ps with
    | nil => intro _; rfl
    | cons p ps ih =>
      intro hm
      simp only [List.map_cons, List.mem_cons] at hm
      push_neg at hm
      rw [List.foldl_cons, if_neg hm.1]
      exact ih hm.2
  exact this ACENTOS h

theorem normChar_eq_self_of_not_mem {c : Char} (h : c ∉ normKeys) :
    normChar c = c := by
  rw [normKeys, List.mem_append] at h
  push_neg at h
  rw [normChar, pyUpperChar, lookupC_eq_none_of_not_mem h.1, Option.getD_none]
  exact accFold_eq_self_of_not_mem h.2

set_option maxRecDepth 4000 in
theorem normChar_idem_of_mem : ∀ c ∈ normKeys, normChar (normChar c) = normChar c := by
  decide

/-- The character action of the normalizer is idempotent. -/
theorem normChar_idem (c : Char) : normChar (normChar c) = normChar c := by
  by_cases h : c ∈ normKeys
  · exact normChar_idem_of_mem c h
  · rw [normChar_eq_self_of_not_mem h, normChar_eq_self_of_not_mem h]


/-! ### Substring and strip lemmas -/

theorem prefOf_iff {pat s : Str} : prefOf pat s = true ↔ ∃ post, s = pat ++ post := by
  induction pat generalizing s with
  | nil => simp [prefOf]
  | cons a as ih =>
    cases s with
    | nil =>
      simp only [prefOf, Bool.false_eq_true, false_iff]
      rintro ⟨post, h⟩
      exact absurd h (by simp)
    | cons b bs =>
      simp only [prefOf, Bool.and_eq_true, decide_eq_true_eq, ih, List.cons_append]
      constructor
      · rintro ⟨rfl, post, rfl⟩
        exact ⟨post, rfl⟩
      · rintro ⟨post, h⟩
        obtain ⟨h1, h2⟩ := List.cons_eq_cons.mp h
        exact ⟨h1.symm, post, h2⟩

theorem containsStr_iff {pat s : Str} :
    containsStr pat s = true ↔ ∃ a b, s = a ++ (pat ++ b) := by
  induction s with
  | nil =>
    simp only [containsStr, prefOf_iff]
    constructor
    · rintro ⟨post, h⟩
      exact ⟨[], post, h⟩
    · rintro ⟨a, b, h⟩
      rcases List.append_eq_nil.mp h.symm with ⟨rfl, h2⟩
      exact ⟨b, by simpa using h⟩
  | cons c cs ih =>
    simp only [containsStr, Bool.or_eq_true, prefOf_iff, ih]
    constructor
    · rintro (⟨post, h⟩ | ⟨a, b, h⟩)
      · exact ⟨[], post, by simpa using h⟩
      · exact ⟨c :: a, b, by simp [h]⟩
    · rintro ⟨a, b, h⟩
      cases a with
      | nil => exact Or.inl ⟨b, by simpa using h⟩
      | cons a0 as =>
        obtain ⟨_, h2⟩ := List.cons_eq_cons.mp h
        exact Or.inr ⟨as, b, h2⟩

theorem containsStr_rev_iff {pat s : Str} :
    containsStr pat.reverse s.reverse = true ↔ containsStr pat s = true := by
  simp only [containsStr_iff]
  constructor
  · rintro ⟨a, b, h⟩
    refine ⟨b.reverse, a.reverse, ?_⟩
    have := congrArg List.reverse h
    simpa [List.append_assoc] using this
  · rintro ⟨a, b, h⟩
    refine ⟨b.reverse, a.reverse, ?_⟩
    rw [h]
    simp [List.append_assoc]

theorem containsStr_dropWhile_of_all {pat : Str} (hne : pat ≠ [])
    (hws : pat.all (fun c => !isWs c) = true) {s : Str}
    (h : containsStr pat s = true) :
    containsStr pat (s.dropWhile isWs) = true := by
  induction s with
  | nil => simpa [List.dropWhile] using h
  | cons c cs ih =>
    rw [containsStr, Bool.or_eq_true] at h
    rw [List.dropWhile_cons]
    by_cases hc : isWs c = true
    · rw [if_pos hc]
      rcases h with h1 | h2
      · obtain ⟨p0, pt, rfl⟩ : ∃ p0 pt, pat = p0 :: pt := by
          cases pat with
          | nil => exact absurd rfl hne
          | cons p0 pt => exact ⟨p0, pt, rfl⟩
        rw [prefOf, Bool.and_eq_true, decide_eq_true_eq] at h1
        rw [List.all_cons, Bool.and_eq_true, Bool.not_eq_true'] at hws
        rw [h1.1] at hws
        rw [hws.1] at hc
        exact absurd hc (by simp)
      · exact ih h2
    · rw [if_neg hc, containsStr, Bool.or_eq_true]
      exact h

theorem containsStr_strip_of_all {pat : Str} (hne : pat ≠ [])
    (hws : pat.all (fun c => !isWs c) = true) {s : Str}
    (h : containsStr pat s = true) :
    containsStr pat (strip s) = true := by
  have hne' : pat.reverse ≠ [] := by
    simpa [List.reverse_eq_nil_iff] using hne
  have hws' : pat.reverse.all (fun c => !isWs c) = true := by
    simpa [List.all_reverse] using hws
  have h1 := containsStr_dropWhile_of_all hne hws h
  have h2 : containsStr pat.reverse (s.dropWhile isWs).reverse = true :=
    containsStr_rev_iff.mpr h1
  have h3 := containsStr_dropWhile_of_all hne' hws' h2
  rw [strip]
  have h4 := @containsStr_rev_iff pat
    (((s.dropWhile isWs).reverse.dropWhile isWs).reverse)
  rw [List.reverse_reverse] at h4
  exact h4.mp h3

theorem strip_sandwich (s : Str) : ∃ a b, s = a ++ (strip s ++ b) := by
  refine ⟨s.takeWhile isWs, ((s.dropWhile isWs).reverse.takeWhile isWs).reverse, ?_⟩
  conv_lhs => rw [← @List.takeWhile_append_dropWhile Char isWs s]
  congr 1
  conv_lhs =>
    rw [← List.reverse_reverse (s.dropWhile isWs),
      ← @List.takeWhile_append_dropWhile Char isWs (s.dropWhile isWs).reverse,
      List.reverse_append]
  rfl

theorem containsStr_of_strip {pat s : Str}
    (h : containsStr pat (strip s) = true) : containsStr pat s = true := by
  obtain ⟨a, b, hs⟩ := strip_sandwich s
  obtain ⟨x, y, hx⟩ := containsStr_iff.mp h
  refine containsStr_iff.mpr ⟨a ++ x, y ++ b, ?_⟩
  rw [hs, hx]
  simp [List.append_assoc]

/-! ### Normalized text splits into normalized lines -/

set_option maxRecDepth 4000 in
theorem normChar_ne_newline_of_mem : ∀ c ∈ normKeys, normChar c ≠ '\n' := by
  decide

theorem normChar_eq_newline_iff (c : Char) : normChar c = '\n' ↔ c = '\n' := by
  constructor
  · intro h
    by_cases hm : c ∈ normKeys
    · exact absurd h (normChar_ne_newline_of_mem c hm)
    · rwa [normChar_eq_self_of_not_mem hm] at h
  · rintro rfl
    rfl

theorem splitNL_ne_nil (s : Str) : splitNL s ≠ [] := by
  induction s with
  | nil => simp [splitNL]
  | cons c cs ih =>
    rw [splitNL]
    rcases h : splitNL cs with _ | ⟨l, ls⟩
    · simp
    · by_cases hc : c = '\n' <;> simp [hc]

theorem splitNL_map {f : Char → Char} (hf : ∀ c, f c = '\n' ↔ c = '\n') (s : Str) :
    splitNL (s.map f) = (splitNL s).map (List.map f) := by
  induction s with
  | nil => rfl
  | cons c cs ih =>
    rw [List.map_cons, splitNL, splitNL, ih]
    rcases h : splitNL cs with _ | ⟨l, ls⟩
    · exact absurd h (splitNL_ne_nil cs)
    · simp only [List.map_cons]
      by_cases hc : c = '\n'
      · rw [if_pos ((hf c).mpr hc), if_pos hc]
        rfl
      · rw [if_neg (fun hfc => hc ((hf c).mp hfc)), if_neg hc]
        rfl

theorem normalizar_fixed_of_mem_linhas {t linha : Str}
    (h : linha ∈ splitNL (normalizar_texto t)) : normalizar_texto linha = linha := by
  rw [normalizar_texto_eq_map, splitNL_map normChar_eq_newline_iff] at h
  obtain ⟨l0, _, rfl⟩ := List.mem_map.mp h
  rw [normalizar_texto_eq_map, List.map_map]
  exact List.map_congr_left fun c _ => by
    simp only [Function.comp_apply, normChar_idem]



/-! ### Membership in the classifier's buckets -/

theorem mem_appendUnique {m x : Str} {acc : List Str} :
    m ∈ appendUnique acc x ↔ m ∈ acc ∨ m = x := by
  rw [appendUnique]
  by_cases h : x ∈ acc
  · rw [if_pos h]
    constructor
    · exact Or.inl
    · rintro (hm | rfl)
      · exact hm
      · exact h
  · rw [if_neg h]
    simp [List.mem_append]

theorem mem_foldl_guard_append {α : Type} (c : α → Bool) (g : α → Str)
    (ls : List α) (acc : List Str) (m : Str) :
    m ∈ ls.foldl (fun acc a => if c a = true then appendUnique acc (g a) else acc) acc
      ↔ m ∈ acc ∨ ∃ a ∈ ls, c a = true ∧ m = g a := by
  induction ls generalizing acc with
  | nil => simp
  | cons a ls ih =>
    rw [List.foldl_cons]
    by_cases hc : c a = true
    · rw [if_pos hc, ih, mem_appendUnique]
      constructor
      · rintro ((hm | rfl) | ⟨a', ha', hca', rfl⟩)
        · exact Or.inl hm
        · exact Or.inr ⟨a, List.mem_cons_self a ls, hc, rfl⟩
        · exact Or.inr ⟨a', List.mem_cons_of_mem a ha', hca', rfl⟩
      · rintro (hm | ⟨a', ha', hca', rfl⟩)
        · exact Or.inl (Or.inl hm)
        · rcases List.mem_cons.mp ha' with rfl | ha''
          · exact Or.inl (Or.inr rfl)
          · exact Or.inr ⟨a', ha'', hca', rfl⟩
    · rw [if_neg hc, ih]
      constructor
      · rintro (hm | ⟨a', ha', hca', rfl⟩)
        · exact Or.inl hm
        · exact Or.inr ⟨a', List.mem_cons_of_mem a ha', hca', rfl⟩
      · rintro (hm | ⟨a', ha', hca', rfl⟩)
        · exact Or.inl hm
        · rcases List.mem_cons.mp ha' with rfl | ha''
          · exact absurd hca' hc
          · exact Or.inr ⟨a', ha'', hca', rfl⟩

theorem passoNossos_eq (produto acc linha) :
    passoNossos produto acc linha =
      if condNossos produto linha = true then appendUnique acc (strip linha) else acc := by
  by_cases h1 : containsStr produto linha = true <;>
  by_cases h2 : (KW_CARTAO_NOSSOS.any fun kw => containsStr kw linha) = true <;>
  by_cases h3 : temExclusao linha = true <;>
    simp [passoNossos, condNossos, h1, h2, h3]

theorem passoConhecidos_eq (cartao acc linha) :
    passoConhecidos cartao acc linha =
      if condConhecidos cartao linha = true then appendUnique acc (strip linha) else acc := by
  by_cases h1 : containsStr cartao linha = true <;>
  by_cases h2 : (KW_CARTAO_CONHECIDOS.any fun kw => containsStr kw linha) = true <;>
  by_cases h3 : temExclusao linha = true <;>
    simp [passoConhecidos, condConhecidos, h1, h2, h3]

theorem passoDesconhecidos_eq (acc linha) :
    passoDesconhecidos acc linha =
      if condDesconhecidos linha = true then appendUnique acc (strip linha) else acc := by
  by_cases h1 : temExclusao (normalizar_texto linha) = true <;>
  by_cases h2 : (KW_CARTAO_DESCONHECIDOS.any
      fun kw => containsStr kw (normalizar_texto linha)) = true <;>
  by_cases h3 : ehNosso (normalizar_texto linha) = true <;>
  by_cases h4 : ehConhecido (normalizar_texto linha) = true <;>
  by_cases h5 : (strip linha).isEmpty = true <;>
    simp [passoDesconhecidos, condDesconhecidos, h1, h2, h3, h4, h5]

theorem mem_foldl_guard2 {α : Type} (d : α → Bool) (c : α → Str → Bool)
    (ps : List α) (ls : List Str) (acc : List Str) (m : Str) :
    m ∈ ps.foldl (fun acc p =>
        if d p = true then
          ls.foldl (fun acc l => if c p l = true then appendUnique acc (strip l) else acc) acc
        else acc) acc
      ↔ m ∈ acc ∨ ∃ p ∈ ps, d p = true ∧ ∃ l ∈ ls, c p l = true ∧ m = strip l := by
  induction ps generalizing acc with
  | nil => simp
  | cons p ps ih =>
    rw [List.foldl_cons]
    by_cases hd : d p = true
    · rw [if_pos hd, ih, mem_foldl_guard_append (c p) strip ls acc m]
      constructor
      · rintro ((hm | ⟨l, hl, hcl, rfl⟩) | ⟨p', hp', hdp', l, hl, hcl, rfl⟩)
        · exact Or.inl hm
        · exact Or.inr ⟨p, List.mem_cons_self p ps, hd, l, hl, hcl, rfl⟩
        · exact Or.inr ⟨p', List.mem_cons_of_mem p hp', hdp', l, hl, hcl, rfl⟩
      · rintro (hm | ⟨p', hp', hdp', l, hl, hcl, rfl⟩)
        · exact Or.inl (Or.inl hm)
        · rcases List.mem_cons.mp hp' with rfl | hp''
          · exact Or.inl (Or.inr ⟨l, hl, hcl, rfl⟩)
          · exact Or.inr ⟨p', hp'', hdp', l, hl, hcl, rfl⟩
    · rw [if_neg hd, ih]
      constructor
      · rintro (hm | ⟨p', hp', hdp', rest⟩)
        · exact Or.inl hm
        · exact Or.inr ⟨p', List.mem_cons_of_mem p hp', hdp', rest⟩
      · rintro (hm | ⟨p', hp', hdp', rest⟩)
        · exact Or.inl hm
        · rcases List.mem_cons.mp hp' with rfl | hp''
          · exact absurd hdp' hd
          · exact Or.inr ⟨p', hp'', hdp', rest⟩

theorem mem_nossos_iff {texto m : Str} :
    m ∈ (identificar_cartoes_credito texto).nossos_contratos ↔
      ∃ p ∈ NOSSOS_PRODUTOS, containsStr p (normalizar_texto texto) = true ∧
        ∃ l ∈ splitNL (normalizar_texto texto), condNossos p l = true ∧ m = strip l := by
  have hstep : ∀ p : Str, passoNossos p = fun acc l =>
      if condNossos p l = true then appendUnique acc (strip l) else acc :=
    fun p => funext fun acc => funext fun l => passoNossos_eq p acc l
  simp only [identificar_cartoes_credito, hstep]
  rw [mem_foldl_guard2 (fun p => containsStr p (normalizar_texto texto)) condNossos
    NOSSOS_PRODUTOS (splitNL (normalizar_texto texto)) [] m]
  simp

theorem mem_conhecidos_iff {texto m : Str} :
    m ∈ (identificar_cartoes_credito texto).conhecidos ↔
      ∃ p ∈ CARTOES_CONHECIDOS, containsStr p (normalizar_texto texto) = true ∧
        ∃ l ∈ splitNL (normalizar_texto texto), condConhecidos p l = true ∧ m = strip l := by
  have hstep : ∀ p : Str, passoConhecidos p = fun acc l =>
      if condConhecidos p l = true then appendUnique acc (strip l) else acc :=
    fun p => funext fun acc => funext fun l => passoConhecidos_eq p acc l
  simp only [identificar_cartoes_credito, hstep]
  rw [mem_foldl_guard2 (fun p => containsStr p (normalizar_texto texto)) condConhecidos
    CARTOES_CONHECIDOS (splitNL (normalizar_texto texto)) [] m]
  simp

theorem mem_desconhecidos_iff {texto m : Str} :
    m ∈ (identificar_cartoes_credito texto).desconhecidos ↔
      ∃ l ∈ splitNL (normalizar_texto texto), condDesconhecidos l = true ∧ m = strip l := by
  have hstep : passoDesconhecidos = fun acc l =>
      if condDesconhecidos l = true then appendUnique acc (strip l) else acc :=
    funext fun acc => funext fun l => passoDesconhecidos_eq acc l
  simp only [identificar_cartoes_credito, hstep]
  rw [mem_foldl_guard_append condDesconhecidos strip (splitNL (normalizar_texto texto)) [] m]
  simp

theorem nossos_wsfree :
    ∀ p ∈ NOSSOS_PRODUTOS, p ≠ [] ∧ p.all (fun c => !isWs c) = true := by
  decide

theorem conhecidos_wsfree :
    ∀ p ∈ CARTOES_CONHECIDOS, p ≠ [] ∧ p.all (fun c => !isWs c) = true := by
  decide

/-- C3 (amended) : a line placed in the unknown bucket is in neither branded
bucket.  (The two branded buckets themselves can overlap; see the
counterexample.) -/
theorem desconhecidos_disjoint_marcas (texto m : Str)
    (h : m ∈ (identificar_cartoes_credito texto).desconhecidos) :
    m ∉ (identificar_cartoes_credito texto).nossos_contratos ∧
    m ∉ (identificar_cartoes_credito texto).conhecidos := by
  obtain ⟨l, hl, hcond, rfl⟩ := mem_desconhecidos_iff.mp h
  have hfix : normalizar_texto l = l := normalizar_fixed_of_mem_linhas hl
  rw [condDesconhecidos] at hcond
  simp only [Bool.and_eq_true, Bool.not_eq_true'] at hcond
  obtain ⟨⟨⟨⟨hex, hkw⟩, hn⟩, hk⟩, hne⟩ := hcond
  rw [hfix] at hn hk
  constructor
  · intro hmem
    obtain ⟨p, hp, hptexto, l', hl', hcond', heq⟩ := mem_nossos_iff.mp hmem
    rw [condNossos] at hcond'
    simp only [Bool.and_eq_true] at hcond'
    have hcont : containsStr p l' = true := hcond'.1.1
    have hws := nossos_wsfree p hp
    have h1 : containsStr p (strip l') = true :=
      containsStr_strip_of_all hws.1 hws.2 hcont
    rw [← heq] at h1
    have h2 : containsStr p l = true := containsStr_of_strip h1
    have h3 : ehNosso l = true := by
      rw [ehNosso, List.any_eq_true]
      exact ⟨p, hp, h2⟩
    rw [hn] at h3
    exact absurd h3 (by simp)
  · intro hmem
    obtain ⟨p, hp, hptexto, l', hl', hcond', heq⟩ := mem_conhecidos_iff.mp hmem
    rw [condConhecidos] at hcond'
    simp only [Bool.and_eq_true] at hcond'
    have hcont : containsStr p l' = true := hcond'.1.1
    have hws := conhecidos_wsfree p hp
    have h1 : containsStr p (strip l') = true :=
      containsStr_strip_of_all hws.1 hws.2 hcont
    rw [← heq] at h1
    have h2 : containsStr p l = true := containsStr_of_strip h1
    have h3 : ehConhecido l = true := by
      rw [ehConhecido, List.any_eq_true]
      exact ⟨p, hp, h2⟩
    rw [hk] at h3
    exact absurd h3 (by simp)

/-- C2 (amended): a line matching an exclusion term is skipped by every
classification pass — processing it leaves every bucket unchanged, so it is
never assigned OWN_CONTRACT (nor any other bucket).  The classifier has no
LOAN category: exclusion-term lines are discarded, not labelled. -/
theorem exclusao_linha_ignorada (linha produto cartao : Str) (acc : List Str) :
    (temExclusao linha = true →
      passoNossos produto acc linha = acc ∧ passoConhecidos cartao acc linha = acc) ∧
    (temExclusao (normalizar_texto linha) = true → passoDesconhecidos acc linha = acc) := by
  refine ⟨fun hex => ⟨?_, ?_⟩, fun hex => ?_⟩
  · simp [passoNossos, hex]
  · simp [passoConhecidos, hex]
  · simp [passoDesconhecidos, hex]

/-- C2 (counterexample to the claim as stated): the classifier output for
the document `"STARCARD EMPRESTIMO CONSIGNADO 500,00"` has all three of its
buckets empty — the line is discarded, not assigned a LOAN category (the
output record has no loan bucket at all), so the claim that the classifier
"assigns it category LOAN" is false of the code. -/
theorem exclusao_linha_counterexample :
    identificar_cartoes_credito (sl "STARCARD EMPRESTIMO CONSIGNADO 500,00") =
      { nossos_contratos := [], conhecidos := [], desconhecidos := [] } := rfl

/-- Witness for `exclusao_linha_ignorada` at the spec's own example line. -/
theorem exclusao_linha_ignorada_witness :
    temExclusao (sl "STARCARD EMPRESTIMO CONSIGNADO 500,00") = true ∧
    passoNossos (sl "STARCARD") [] (sl "STARCARD EMPRESTIMO CONSIGNADO 500,00") = [] ∧
    passoConhecidos (sl "BRADESCO") [] (sl "STARCARD EMPRESTIMO CONSIGNADO 500,00") = [] ∧
    passoDesconhecidos [] (sl "STARCARD EMPRESTIMO CONSIGNADO 500,00") = [] := by
  have h := exclusao_linha_ignorada (sl "STARCARD EMPRESTIMO CONSIGNADO 500,00")
    (sl "STARCARD") (sl "BRADESCO") []
  have hex : temExclusao (sl "STARCARD EMPRESTIMO CONSIGNADO 500,00") = true := by decide
  have hexn : temExclusao (normalizar_texto (sl "STARCARD EMPRESTIMO CONSIGNADO 500,00")) = true := by
    decide
  exact ⟨hex, (h.1 hex).1, (h.1 hex).2, h.2 hexn⟩

/-- C3 (counterexample to the claim as stated): the line
`"STARCARD BRADESCO CARTAO 100,00"`, which names an own-product brand and a
known competitor brand together with a card keyword, appears in BOTH the
own-contracts bucket and the known-competitors bucket — classification is
not mutually exclusive. -/
theorem linha_dupla_marca_counterexample :
    (identificar_cartoes_credito (sl "STARCARD BRADESCO CARTAO 100,00")).nossos_contratos
        = [sl "STARCARD BRADESCO CARTAO 100,00"] ∧
    (identificar_cartoes_credito (sl "STARCARD BRADESCO CARTAO 100,00")).conhecidos
        = [sl "STARCARD BRADESCO CARTAO 100,00"] := ⟨rfl, rfl⟩

/-- Witness for `desconhecidos_disjoint_marcas` on a document whose unknown
bucket is inhabited. -/
theorem desconhecidos_disjoint_marcas_witness :
    sl "CARTAO GENERICO 50,00" ∈
      (identificar_cartoes_credito (sl "CARTAO GENERICO 50,00")).desconhecidos ∧
    sl "CARTAO GENERICO 50,00" ∉
      (identificar_cartoes_credito (sl "CARTAO GENERICO 50,00")).nossos_contratos ∧
    sl "CARTAO GENERICO 50,00" ∉
      (identificar_cartoes_credito (sl "CARTAO GENERICO 50,00")).conhecidos := by
  have hmem : sl "CARTAO GENERICO 50,00" ∈
      (identificar_cartoes_credito (sl "CARTAO GENERICO 50,00")).desconhecidos := by
    rw [show (identificar_cartoes_credito (sl "CARTAO GENERICO 50,00")).desconhecidos
      = [sl "CARTAO GENERICO 50,00"] from rfl]
    exact List.mem_singleton.mpr rfl
  have h := desconhecidos_disjoint_marcas (sl "CARTAO GENERICO 50,00")
    (sl "CARTAO GENERICO 50,00") hmem
  exact ⟨hmem, h.1, h.2⟩

/-- C9: `normalizar_texto` is idempotent — normalizing twice equals
normalizing once, for every input string — and, being a Lean function, it is
total: it is defined on every input. -/
theorem normalizar_idempotente (x : Str) :
    normalizar_texto (normalizar_texto x) = normalizar_texto x := by
  simp only [normalizar_texto_eq_map, List.map_map]
  exact List.map_congr_left fun c _ => by
    simp only [Function.comp_apply, normChar_idem]

/-! ### The field extractor scans forward and overwrites -/

theorem getLastD_cons_irrel {β : Type} (y : β) (ys : List β) (b1 b2 : β) :
    ((y :: ys).getLast?).getD b1 = ((y :: ys).getLast?).getD b2 := by
  obtain ⟨w, hw⟩ : ∃ w, (y :: ys).getLast? = some w := by
    cases h : (y :: ys).getLast? with
    | some w => exact ⟨w, rfl⟩
    | none => exact absurd (List.getLast?_eq_none_iff.mp h) (by simp)
  rw [hw]
  rfl

theorem foldl_getD_eq_getLast {α β : Type} (f : α → Option β) (ls : List α) (b : β) :
    ls.foldl (fun b a => (f a).getD b) b = ((ls.filterMap f).getLast?).getD b := by
  induction ls generalizing b with
  | nil => simp
  | cons a ls ih =>
    rw [List.foldl_cons, ih, List.filterMap_cons]
    cases hfa : f a with
    | none => simp
    | some v =>
      simp only [Option.getD_some]
      rcases hxs : ls.filterMap f with _ | ⟨y, ys⟩
      · simp
      · rw [List.getLast?_cons_cons]
        exact getLastD_cons_irrel y ys v b

theorem foldl_passoInfo (linhas : List Str) (ls : List (ℕ × Str)) (info : InfoFinanceira) :
    ls.foldl (passoInfo linhas) info =
      { nome := ls.foldl (fun b il => (nomeUpd linhas il.1 il.2).getD b) info.nome,
        matricula := ls.foldl (fun b il => (matriculaUpd il.2).getD b) info.matricula,
        vencimentos_total := ls.foldl (fun b il => (vencUpd il.2).getD b) info.vencimentos_total,
        descontos_total := ls.foldl (fun b il => (descUpd il.2).getD b) info.descontos_total,
        liquido := ls.foldl (fun b il => ((liqUpd il.2).map some).getD b) info.liquido } := by
  induction ls generalizing info with
  | nil => rfl
  | cons il ls ih =>
    rw [List.foldl_cons, ih]
    rfl

/-- C4 (amended): the field extractor is a single forward scan in which
every matching line overwrites the field, so for each of the five fields the
LAST matching line wins: each extracted field equals the value produced by
the last line whose trigger and inner pattern both succeed, or the default
when no line matches. -/
theorem extracao_ultima_linha_vence (texto : Str) :
    (extrair_informacoes_financeiras texto).nome =
      ((((splitNL texto).enum.filterMap fun il =>
          nomeUpd (splitNL texto) il.1 il.2).getLast?).getD []) ∧
    (extrair_informacoes_financeiras texto).matricula =
      ((((splitNL texto).enum.filterMap fun il => matriculaUpd il.2).getLast?).getD []) ∧
    (extrair_informacoes_financeiras texto).vencimentos_total =
      ((((splitNL texto).enum.filterMap fun il => vencUpd il.2).getLast?).getD 0) ∧
    (extrair_informacoes_financeiras texto).descontos_total =
      ((((splitNL texto).enum.filterMap fun il => descUpd il.2).getLast?).getD 0) ∧
    (extrair_informacoes_financeiras texto).liquido =
      ((((splitNL texto).enum.filterMap fun il =>
          (liqUpd il.2).map some).getLast?).getD none) := by
  have h := foldl_passoInfo (splitNL texto) ((splitNL texto).enum)
    { nome := [], matricula := [], vencimentos_total := 0, descontos_total := 0,
      liquido := none }
  rw [extrair_informacoes_financeiras, h]
  refine ⟨?_, ?_, ?_, ?_, ?_⟩ <;>
    simp only [foldl_getD_eq_getLast]

/-- C4 (counterexample to "first match wins"): with two lines that both
trigger the gross-total rule, the extractor returns the value of the SECOND
line (`200,00`), not the first (`100,00`). -/
theorem extracao_primeira_linha_counterexample :
    (extrair_informacoes_financeiras
        (sl "VENCIMENTOS 100,00\nVENCIMENTOS 200,00")).vencimentos_total = 200 ∧
    (200 : ℚ) ≠ 100 := by
  constructor
  · have h : (extrair_informacoes_financeiras
        (sl "VENCIMENTOS 100,00\nVENCIMENTOS 200,00")).vencimentos_total
        = valorDe (sl "200,00") := rfl
    have h2 : valorDe (sl "200,00")
        = (digitsToNat (sl "200") : ℚ) + (digitsToNat (sl "00") : ℚ) / 10 ^ 2 := rfl
    rw [h, h2, show digitsToNat (sl "200") = 200 from rfl,
      show digitsToNat (sl "00") = 0 from rfl]
    norm_num
  · norm_num

/-- C5: evaluation of the field extractor on the spec's reference document.
Name, registration number, deductions total and net pay match the spec, but
the gross total is `300.00`, NOT the `3000.00` the spec states: the
simplified pattern `(\d+[.,]\d{2})` can only match `"3.00"` inside
`"3.000,00"`, and the dot-stripping conversion turns that into `300.0`. -/
theorem extracao_referencia_eval :
    (extrair_informacoes_financeiras docReferencia).nome = sl "JOAO SILVA" ∧
    (extrair_informacoes_financeiras docReferencia).matricula = sl "123456" ∧
    (extrair_informacoes_financeiras docReferencia).vencimentos_total = 300 ∧
    (300 : ℚ) ≠ 3000 ∧
    (extrair_informacoes_financeiras docReferencia).descontos_total = 300 ∧
    (extrair_informacoes_financeiras docReferencia).liquido = some 2700 := by
  refine ⟨rfl, rfl, ?_, by norm_num, ?_, ?_⟩
  · have h : (extrair_informacoes_financeiras docReferencia).vencimentos_total
        = valorDe (sl "3.00") := rfl
    have h2 : valorDe (sl "3.00")
        = (digitsToNat (sl "300") : ℚ) + (digitsToNat (sl "") : ℚ) / 10 ^ 0 := rfl
    rw [h, h2, show digitsToNat (sl "300") = 300 from rfl,
      show digitsToNat (sl "") = 0 from rfl]
    norm_num
  · have h : (extrair_informacoes_financeiras docReferencia).descontos_total
        = valorDe (sl "300,00") := rfl
    have h2 : valorDe (sl "300,00")
        = (digitsToNat (sl "300") : ℚ) + (digitsToNat (sl "00") : ℚ) / 10 ^ 2 := rfl
    rw [h, h2, show digitsToNat (sl "300") = 300 from rfl,
      show digitsToNat (sl "00") = 0 from rfl]
    norm_num
  · have h : (extrair_informacoes_financeiras docReferencia).liquido
        = some (valorDe (sl "2.700,00")) := rfl
    have h2 : valorDe (sl "2.700,00")
        = (digitsToNat (sl "2700") : ℚ) + (digitsToNat (sl "00") : ℚ) / 10 ^ 2 := rfl
    rw [h, h2, show digitsToNat (sl "2700") = 2700 from rfl,
      show digitsToNat (sl "00") = 0 from rfl]
    norm_num [Option.some.injEq]

/-! ### The value extractor keeps only positive-valued lines -/

theorem foldl_passoValoresNossos (ls : List Str) (s : ValoresCartoes) :
    ls.foldl passoValoresNossos s =
      { s with
        nossos_contratos := s.nossos_contratos ++ ls.filterMap itemPos,
        total := s.total + ((ls.filterMap itemPos).map ItemValor.valor).sum } := by
  induction ls generalizing s with
  | nil => simp
  | cons l ls ih =>
    rw [List.foldl_cons, List.filterMap_cons]
    have hstep : passoValoresNossos s l =
        if 0 < extrair_valores_desconto l then
          { s with
            nossos_contratos :=
              s.nossos_contratos ++ [⟨strip l, extrair_valores_desconto l⟩],
            total := s.total + extrair_valores_desconto l }
        else s := rfl
    rw [hstep, itemPos]
    by_cases h : 0 < extrair_valores_desconto l
    · rw [if_pos h, if_pos h, ih]
      simp [List.append_assoc, add_assoc]
    · rw [if_neg h, if_neg h, ih]

theorem foldl_passoValoresConhecidos (ls : List Str) (s : ValoresCartoes) :
    ls.foldl passoValoresConhecidos s =
      { s with
        conhecidos := s.conhecidos ++ ls.filterMap itemPos,
        total := s.total + ((ls.filterMap itemPos).map ItemValor.valor).sum } := by
  induction ls generalizing s with
  | nil => simp
  | cons l ls ih =>
    rw [List.foldl_cons, List.filterMap_cons]
    have hstep : passoValoresConhecidos s l =
        if 0 < extrair_valores_desconto l then
          { s with
            conhecidos := s.conhecidos ++ [⟨strip l, extrair_valores_desconto l⟩],
            total := s.total + extrair_valores_desconto l }
        else s := rfl
    rw [hstep, itemPos]
    by_cases h : 0 < extrair_valores_desconto l
    · rw [if_pos h, if_pos h, ih]
      simp [List.append_assoc, add_assoc]
    · rw [if_neg h, if_neg h, ih]

theorem foldl_passoValoresDesconhecidos (ls : List Str) (s : ValoresCartoes) :
    ls.foldl passoValoresDesconhecidos s =
      { s with
        desconhecidos := s.desconhecidos ++ ls.filterMap itemPos,
        total := s.total + ((ls.filterMap itemPos).map ItemValor.valor).sum } := by
  induction ls generalizing s with
  | nil => simp
  | cons l ls ih =>
    rw [List.foldl_cons, List.filterMap_cons]
    have hstep : passoValoresDesconhecidos s l =
        if 0 < extrair_valores_desconto l then
          { s with
            desconhecidos := s.desconhecidos ++ [⟨strip l, extrair_valores_desconto l⟩],
            total := s.total + extrair_valores_desconto l }
        else s := rfl
    rw [hstep, itemPos]
    by_cases h : 0 < extrair_valores_desconto l
    · rw [if_pos h, if_pos h, ih]
      simp [List.append_assoc, add_assoc]
    · rw [if_neg h, if_neg h, ih]

theorem extrair_valores_cartoes_eq (texto : Str) (c : CartoesEncontrados) :
    extrair_valores_cartoes texto c =
      { nossos_contratos := c.nossos_contratos.filterMap itemPos,
        conhecidos := c.conhecidos.filterMap itemPos,
        desconhecidos := c.desconhecidos.filterMap itemPos,
        total := ((c.nossos_contratos.filterMap itemPos).map ItemValor.valor).sum
          + ((c.conhecidos.filterMap itemPos).map ItemValor.valor).sum
          + ((c.desconhecidos.filterMap itemPos).map ItemValor.valor).sum } := by
  rw [extrair_valores_cartoes, foldl_passoValoresNossos, foldl_passoValoresConhecidos,
    foldl_passoValoresDesconhecidos]
  simp

/-- C6 (amended): the value extractor KEEPS only classified lines whose
parsed deduction value is strictly positive, each paired with its value; a
line in which the value parser finds no numeric token (value `0`) is dropped
from the result entirely — it is not reported with amount `0` — and the
total is the sum of the kept values. -/
theorem valores_cartoes_positivos (texto : Str) (c : CartoesEncontrados) :
    (extrair_valores_cartoes texto c).nossos_contratos
        = c.nossos_contratos.filterMap itemPos ∧
    (extrair_valores_cartoes texto c).conhecidos = c.conhecidos.filterMap itemPos ∧
    (extrair_valores_cartoes texto c).desconhecidos
        = c.desconhecidos.filterMap itemPos ∧
    (extrair_valores_cartoes texto c).total
        = (((c.nossos_contratos.filterMap itemPos).map ItemValor.valor).sum
          + ((c.conhecidos.filterMap itemPos).map ItemValor.valor).sum
          + ((c.desconhecidos.filterMap itemPos).map ItemValor.valor).sum) ∧
    (∀ linha : Str, findallCurrency linha = [] → itemPos linha = none) := by
  rw [extrair_valores_cartoes_eq]
  refine ⟨rfl, rfl, rfl, rfl, fun linha h => ?_⟩
  simp [itemPos, extrair_valores_desconto, h]

/-- C6 (counterexample to the claim as stated): the classified line
`"BRADESCO CARTAO SEM NUMERO"` has no currency token, and the value
extractor DROPS it — the result's `conhecidos` list is empty rather than
keeping the line with amount `0`. -/
theorem linha_sem_valor_counterexample :
    findallCurrency (sl "BRADESCO CARTAO SEM NUMERO") = [] ∧
    (extrair_valores_cartoes []
      { nossos_contratos := [], conhecidos := [sl "BRADESCO CARTAO SEM NUMERO"],
        desconhecidos := [] }).conhecidos = [] ∧
    (extrair_valores_cartoes []
      { nossos_contratos := [], conhecidos := [sl "BRADESCO CARTAO SEM NUMERO"],
        desconhecidos := [] }).total = 0 := ⟨rfl, rfl, rfl⟩

/-- Witness for `valores_cartoes_positivos` at a concrete tokenless line. -/
theorem valores_cartoes_positivos_witness :
    itemPos (sl "SEM VALOR") = none ∧
    (extrair_valores_cartoes []
      { nossos_contratos := [], conhecidos := [sl "SEM VALOR"],
        desconhecidos := [] }).conhecidos = (List.filterMap itemPos [sl "SEM VALOR"]) := by
  have h := valores_cartoes_positivos []
    { nossos_contratos := [], conhecidos := [sl "SEM VALOR"], desconhecidos := [] }
  exact ⟨h.2.2.2.2 (sl "SEM VALOR") rfl, h.2.1⟩

/-- C7: the value-parser policies.  The last-token policy returns the
rightmost currency token converted to a number
(`parse_last_token("DESCONTO CARTAO 1.234,56") = 1234.56`); the
second-to-last-token policy falls back to the only token when exactly one
exists; both return `0` when no token matches
(`parse_last_token("SEM NUMERO") = 0`); both are total functions of the
model, so no input raises. -/
theorem parser_valores_politicas :
    extrair_valores_desconto (sl "DESCONTO CARTAO 1.234,56") = 1234.56 ∧
    extrair_valores_desconto (sl "SEM NUMERO") = 0 ∧
    (∀ linha : Str, findallCurrency linha = [] →
      extrair_valores_desconto linha = 0 ∧ extrair_valores_vencimento linha = 0) ∧
    (∀ (linha v : Str), findallCurrency linha = [v] →
      extrair_valores_vencimento linha = valorDe v ∧
      extrair_valores_desconto linha = valorDe v) ∧
    (∀ (linha : Str) (vs : List Str) (v : Str), findallCurrency linha = vs ++ [v] →
      extrair_valores_desconto linha = valorDe v) := by
  refine ⟨?_, rfl, ?_, ?_, ?_⟩
  · have h2 : extrair_valores_desconto (sl "DESCONTO CARTAO 1.234,56")
        = valorDe (sl "1.234,56") := rfl
    have h3 : valorDe (sl "1.234,56")
        = (digitsToNat (sl "1234") : ℚ) + (digitsToNat (sl "56") : ℚ) / 10 ^ 2 := rfl
    rw [h2, h3, show digitsToNat (sl "1234") = 1234 from rfl,
      show digitsToNat (sl "56") = 56 from rfl]
    norm_num
  · intro linha h
    exact ⟨by simp [extrair_valores_desconto, h],
      by simp [extrair_valores_vencimento, h]⟩
  · intro linha v h
    exact ⟨by simp [extrair_valores_vencimento, h],
      by simp [extrair_valores_desconto, h]⟩
  · intro linha vs v h
    simp [extrair_valores_desconto, h]

/-- Witness for `parser_valores_politicas` at concrete lines. -/
theorem parser_valores_politicas_witness :
    extrair_valores_desconto (sl "SEM NUMERO") = 0 ∧
    extrair_valores_vencimento (sl "SEM NUMERO") = 0 ∧
    extrair_valores_vencimento (sl "X 77,10") = valorDe (sl "77,10") := by
  have h := parser_valores_politicas
  have h1 := h.2.2.1 (sl "SEM NUMERO") rfl
  have h2 := h.2.2.2.1 (sl "X 77,10") (sl "77,10") rfl
  exact ⟨h1.1, h1.2, h2.1⟩

/-- C8: when the computed calculation base is `≤ 0` (and the percentage
parameter is nonnegative — both repository call sites use `0.15`), the
margin cap is `≤ 0`, the guard `margem_total > 0` fails, and the utilization
percentage is exactly `0`: the division branch is never taken, so no
division by zero can occur. -/
theorem margem_zero_sem_divisao (salario_base : ℚ) (vencimentos_fixos : VencimentosFixos)
    (descontos_obrigatorios : DescontosObrigatorios) (valores_cartoes : ValoresCartoes)
    (percentual_permitido : ℚ) (hp : 0 ≤ percentual_permitido)
    (hb : salario_base + vencimentos_fixos.total - descontos_obrigatorios.total ≤ 0) :
    (calcular_margem_disponivel salario_base vencimentos_fixos descontos_obrigatorios
        valores_cartoes percentual_permitido).percentual_utilizado = 0 ∧
    (calcular_margem_disponivel salario_base vencimentos_fixos descontos_obrigatorios
        valores_cartoes percentual_permitido).margem_total ≤ 0 := by
  have hm : (salario_base + vencimentos_fixos.total - descontos_obrigatorios.total)
      * percentual_permitido ≤ 0 := by
    have h2 := mul_le_mul_of_nonneg_right hb hp
    simpa using h2
  constructor
  · have hpr : (calcular_margem_disponivel salario_base vencimentos_fixos
        descontos_obrigatorios valores_cartoes percentual_permitido).percentual_utilizado
        = if 0 < (salario_base + vencimentos_fixos.total - descontos_obrigatorios.total)
              * percentual_permitido
          then valores_cartoes.total
            / ((salario_base + vencimentos_fixos.total - descontos_obrigatorios.total)
              * percentual_permitido) * 100
          else 0 := rfl
    rw [hpr, if_neg (not_lt.mpr hm)]
  · have hmr : (calcular_margem_disponivel salario_base vencimentos_fixos
        descontos_obrigatorios valores_cartoes percentual_permitido).margem_total
        = (salario_base + vencimentos_fixos.total - descontos_obrigatorios.total)
          * percentual_permitido := rfl
    rw [hmr]
    exact hm

/-- Witness for `margem_zero_sem_divisao` at a zero base with committed
cards. -/
theorem margem_zero_sem_divisao_witness :
    (calcular_margem_disponivel 0 ⟨0, 0, [], 0⟩ ⟨0, 0, 0, 0⟩ ⟨[], [], [], 5⟩
        (15/100)).percentual_utilizado = 0 ∧
    (calcular_margem_disponivel 0 ⟨0, 0, [], 0⟩ ⟨0, 0, 0, 0⟩ ⟨[], [], [], 5⟩
        (15/100)).margem_total ≤ 0 :=
  margem_zero_sem_divisao 0 ⟨0, 0, [], 0⟩ ⟨0, 0, 0, 0⟩ ⟨[], [], [], 5⟩ (15/100)
    (by norm_num) (by norm_num)

/-- C1 (counterexample to the tiered-policy claim): at base 3000 with card
total 100, at the `0.15` rate both repository call sites use, the source
calculator returns a single undivided cap `margem_total = 450`
(not the claimed `total_ceiling = 1350`), availability `350` (not the
claimed `card_available = 200`) and utilization `200/9 ≈ 22.22` (not
`≈ 33.33`); its output has no loan/card ceiling split at all. -/
theorem margem_flat_counterexample :
    (calcular_margem_disponivel 3000 ⟨0, 0, [], 0⟩ ⟨0, 0, 0, 0⟩ ⟨[], [], [], 100⟩
        (15/100)).margem_total = 450 ∧
    (450 : ℚ) ≠ 1350 ∧
    (calcular_margem_disponivel 3000 ⟨0, 0, [], 0⟩ ⟨0, 0, 0, 0⟩ ⟨[], [], [], 100⟩
        (15/100)).margem_disponivel = 350 ∧
    (350 : ℚ) ≠ 200 ∧
    (calcular_margem_disponivel 3000 ⟨0, 0, [], 0⟩ ⟨0, 0, 0, 0⟩ ⟨[], [], [], 100⟩
        (15/100)).percentual_utilizado = 200 / 9 ∧
    ¬ |(200 / 9 : ℚ) - 3333 / 100| < 1 / 100 := by
  refine ⟨?_, by norm_num, ?_, by norm_num, ?_, ?_⟩
  · have h : (calcular_margem_disponivel 3000 ⟨0, 0, [], 0⟩ ⟨0, 0, 0, 0⟩
        ⟨[], [], [], 100⟩ (15/100)).margem_total = ((3000 : ℚ) + 0 - 0) * (15/100) := rfl
    rw [h]
    norm_num
  · have h : (calcular_margem_disponivel 3000 ⟨0, 0, [], 0⟩ ⟨0, 0, 0, 0⟩
        ⟨[], [], [], 100⟩ (15/100)).margem_disponivel
        = ((3000 : ℚ) + 0 - 0) * (15/100) - 100 := rfl
    rw [h]
    norm_num
  · have h : (calcular_margem_disponivel 3000 ⟨0, 0, [], 0⟩ ⟨0, 0, 0, 0⟩
        ⟨[], [], [], 100⟩ (15/100)).percentual_utilizado
        = if 0 < ((3000 : ℚ) + 0 - 0) * (15/100)
          then (100 : ℚ) / (((3000 : ℚ) + 0 - 0) * (15/100)) * 100 else 0 := rfl
    rw [h, if_pos (by norm_num : (0 : ℚ) < ((3000 : ℚ) + 0 - 0) * (15/100))]
    norm_num
  · rw [abs_sub_comm, abs_of_nonneg (by norm_num : (0 : ℚ) ≤ 3333 / 100 - 200 / 9)]
    norm_num

/-- C1 (amended): the source's margin arithmetic applies one undivided cap:
for any inputs whose calculation base is `3000` and whose committed card
total is `100`, at the `0.15` rate used by the repository's call sites, the
calculator yields `margem_total = 450`, `margem_disponivel = 350`,
`percentual_utilizado = 200/9 ≈ 22.22` and `tem_margem = true`; no
loan/card ceiling split exists in the code. -/
theorem margem_flat_cap_cenario (salario_base : ℚ) (vf : VencimentosFixos)
    (dob : DescontosObrigatorios) (vc : ValoresCartoes)
    (hb : salario_base + vf.total - dob.total = 3000) (hc : vc.total = 100) :
    (calcular_margem_disponivel salario_base vf dob vc (15/100)).base_calculo = 3000 ∧
    (calcular_margem_disponivel salario_base vf dob vc (15/100)).margem_total = 450 ∧
    (calcular_margem_disponivel salario_base vf dob vc (15/100)).margem_disponivel = 350 ∧
    (calcular_margem_disponivel salario_base vf dob vc (15/100)).percentual_utilizado
      = 200 / 9 ∧
    (calcular_margem_disponivel salario_base vf dob vc (15/100)).tem_margem = true := by
  have h1 : (calcular_margem_disponivel salario_base vf dob vc (15/100)).base_calculo
      = salario_base + vf.total - dob.total := rfl
  have h2 : (calcular_margem_disponivel salario_base vf dob vc (15/100)).margem_total
      = (salario_base + vf.total - dob.total) * (15/100) := rfl
  have h3 : (calcular_margem_disponivel salario_base vf dob vc (15/100)).margem_disponivel
      = (salario_base + vf.total - dob.total) * (15/100) - vc.total := rfl
  have h4 : (calcular_margem_disponivel salario_base vf dob vc (15/100)).percentual_utilizado
      = if 0 < (salario_base + vf.total - dob.total) * (15/100)
        then vc.total / ((salario_base + vf.total - dob.total) * (15/100)) * 100
        else 0 := rfl
  have h5 : (calcular_margem_disponivel salario_base vf dob vc (15/100)).tem_margem
      = decide (0 < (salario_base + vf.total - dob.total) * (15/100) - vc.total) := rfl
  rw [h1, h2, h3, h4, h5, hb, hc]
  rw [if_pos (by norm_num : (0 : ℚ) < 3000 * (15/100))]
  refine ⟨rfl, by norm_num, by norm_num, by norm_num, ?_⟩
  simp only [decide_eq_true_eq]
  norm_num

/-- Witness for `margem_flat_cap_cenario` at concrete records realizing the
scenario. -/
theorem margem_flat_cap_cenario_witness :
    (calcular_margem_disponivel 3000 ⟨0, 0, [], 0⟩ ⟨0, 0, 0, 0⟩ ⟨[], [], [], 100⟩
        (15/100)).base_calculo = 3000 ∧
    (calcular_margem_disponivel 3000 ⟨0, 0, [], 0⟩ ⟨0, 0, 0, 0⟩ ⟨[], [], [], 100⟩
        (15/100)).tem_margem = true := by
  have h := margem_flat_cap_cenario 3000 ⟨0, 0, [], 0⟩ ⟨0, 0, 0, 0⟩ ⟨[], [], [], 100⟩
    (by norm_num) (by norm_num)
  exact ⟨h.1, h.2.2.2.2⟩

/-- C10: for every text and classified-lines dictionary, the integration
helper raises `TypeError` and never returns a result: its call to
`calcular_margem_disponivel` supplies 3 positional arguments
(`salario_bruto`, `descontos_fixos`, `valores_cartoes`) while 4 positional
parameters are required. -/
theorem analisar_contracheque_type_error (texto : Str) (cartoes : CartoesEncontrados) :
    analisar_contracheque texto cartoes = Except.error PyError.typeError ∧
    analisarContrachequePosArgs < margemRequiredPosParams :=
  ⟨rfl, by decide⟩
